import Mathlib

/-!
Shallow embedding of the synchronization engine in `indi_aws/aws_utils.py`.

The remote object store (a boto3 `Bucket`) is modelled as an association
list from keys to object contents; the store reports an object's checksum
(`e_tag`) as `md5` of its content, where `md5 : String → String` is an
arbitrary fingerprint function passed explicitly to every definition that
hashes.  `ClientError` raised by `Object.get()` on a missing key is
modelled by the lookup returning `none`; for `s3_upload`, whose except
clause also swallows every other `ClientError`, an explicit oracle
`getFails` marks keys whose metadata lookup fails for reasons other than
absence.  Side effects against the store and the local filesystem are
recorded in an `Effect` trace.
-/

set_option autoImplicit false

/-- The remote store: an association list from keys to object contents.
Lookups take the first binding of a key. -/
abbrev S3State := List (String × String)

/-- `Object.get()` / existence test: content of the first binding of `k`. -/
def s3Get (st : S3State) (k : String) : Option String :=
  (st.find? (fun p => p.1 == k)).map (fun p => p.2)

/-- Writing an object: bind `k` to `v`, dropping any previous binding. -/
def s3Put (st : S3State) (k v : String) : S3State :=
  (k, v) :: st.filter (fun p => p.1 != k)

/-- `Object.delete()`: remove every binding of `k`. -/
def s3Del (st : S3State) (k : String) : S3State :=
  st.filter (fun p => p.1 != k)

/-- Side effects performed against the store and the local filesystem. -/
inductive Effect where
  | upload (src dst : String)
  | download (key path : String)
  | downloadFailed (key path : String)
  | makedirs (d : String)
  | copy (src dst : String)
  | delete (key : String)
  deriving DecidableEq, Repr

/-- The two error classes `s3_rename` can raise for its length contract. -/
inductive RenameError where
  | valueError
  | runtimeError
  deriving DecidableEq, Repr

/-- Loop body of `s3_rename` (aws_utils.py lines 157-184) for one
`(src_f, dst_key)` pair: skip when the source is absent; skip when the
destination already exists; otherwise copy the source content to the
destination and, unless `keep_old`, delete the source.  `make_public`
only selects the ACL passed to `copy_from` and does not affect the
resulting store. -/
def s3_rename_item (st : S3State) (keep_old : Bool) (src_f dst_key : String) :
    S3State × List Effect :=
  match s3Get st src_f with
  | none => (st, [])
  | some content =>
    match s3Get st dst_key with
    | some _ => (st, [])
    | none =>
      let st1 := s3Put st dst_key content
      if keep_old then (st1, [Effect.copy src_f dst_key])
      else (s3Del st1 src_f, [Effect.copy src_f dst_key, Effect.delete src_f])

/-- The `for idx, src_f in enumerate(src_list)` loop of `s3_rename`,
over the zipped pairs. -/
def s3_rename_go (keep_old : Bool) :
    S3State → List (String × String) → S3State × List Effect
  | st, [] => (st, [])
  | st, (src_f, dst_key) :: rest =>
    let r := s3_rename_item st keep_old src_f dst_key
    let r2 := s3_rename_go keep_old r.1 rest
    (r2.1, r.2 ++ r2.2)

/-- `s3_rename(bucket, src_dst_tuple, keep_old, make_public)`: unpack the
tuple, raise `ValueError` when the list lengths differ, re-check the same
condition raising `RuntimeError`, then process the pairs. -/
def s3_rename (st : S3State) (src_dst_tuple : List String × List String)
    (keep_old make_public : Bool) : Except RenameError (S3State × List Effect) :=
  let src_list := src_dst_tuple.1
  let dst_list := src_dst_tuple.2
  if src_list.length ≠ dst_list.length then Except.error RenameError.valueError
  else
    let num_files := src_list.length
    if num_files ≠ dst_list.length then Except.error RenameError.runtimeError
    else Except.ok (s3_rename_go keep_old st (src_list.zip dst_list))

/-- `s3_delete(bucket, bucket_keys)` (aws_utils.py lines 196-235): each
key's delete is attempted inside its own `try`; `delFails k = true` models
`bobj.delete()` raising an `Exception` for that key, which is caught and
logged.  The second component records, in order, each key with a flag
telling whether its delete succeeded. -/
def s3_delete (st : S3State) (delFails : String → Bool) :
    List String → S3State × List (String × Bool)
  | [] => (st, [])
  | k :: rest =>
    if delFails k then
      let r := s3_delete st delFails rest
      (r.1, (k, false) :: r.2)
    else
      let r := s3_delete (s3Del st k) delFails rest
      (r.1, (k, true) :: r.2)

/-- Python `s.split('/')` on a character list. -/
def splitSlash : List Char → List (List Char)
  | [] => [[]]
  | '/' :: rest => [] :: splitSlash rest
  | c :: rest =>
    match splitSlash rest with
    | [] => [[c]]
    | p :: ps => (c :: p) :: ps

/-- Python `s.replace(pat, rep)` (all non-overlapping occurrences, left to
right) on character lists, with explicit fuel; `fuel = s.length + 1` is
always enough since `pat` is nonempty at every call site. -/
def replaceFuel (pat rep : List Char) : Nat → List Char → List Char
  | 0, s => s
  | _ + 1, [] => []
  | fuel + 1, c :: rest =>
    if pat.isPrefixOf (c :: rest) then
      rep ++ replaceFuel pat rep fuel ((c :: rest).drop pat.length)
    else c :: replaceFuel pat rep fuel rest

/-- The `s3_str = 's3://'` constant of `s3_upload`. -/
def s3_str : String := "s3://"

/-- True when the path begins with `s3://`. -/
def startsWithS3 (p : String) : Bool :=
  s3_str.data.isPrefixOf p.data

/-- `p.split('/')[2]` followed by
`p.replace(s3_str + bucket_name, '').lstrip('/')` from the body of
`s3_upload` (aws_utils.py lines 375-376): extract the bucket-name
component, erase every occurrence of `s3://<bucket>`, strip leading
slashes. -/
def stripS3 (p : String) : String :=
  let bucket_name := (splitSlash p.data).getD 2 []
  String.mk ((replaceFuel (s3_str.data ++ bucket_name) [] (p.data.length + 1)
    p.data).dropWhile (fun c => c == '/'))

/-- The `if src_file.startswith(s3_str): ... elif dst_file.startswith(s3_str): ...`
normalization of `s3_upload` (aws_utils.py lines 374-379).  Note the
`elif`: when the source is fully qualified the destination is left
untouched, even if it is fully qualified too. -/
def normalize_pair (src_file dst_file : String) : String × String :=
  if startsWithS3 src_file then (stripS3 src_file, dst_file)
  else if startsWithS3 dst_file then (src_file, stripS3 dst_file)
  else (src_file, dst_file)

/-- The only error `s3_upload` raises itself: the length contract. -/
inductive UploadError where
  | runtimeError
  deriving DecidableEq, Repr

/-- Loop body of `s3_upload` (aws_utils.py lines 369-401) for one
`(src_file, dst_file)` pair: normalize the pair, then try
`dst_key.get()`.  A `ClientError` — either because the key is absent or
because the lookup failed for another reason (`getFails`) — leads to an
unconditional upload.  When the lookup succeeds, the local MD5 of the
source content (`localContent` gives each local file's bytes) is compared
to the remote checksum, and the file is uploaded exactly when they
differ.  An upload stores the local content under the destination key. -/
def s3_upload_item (md5 : String → String) (getFails : String → Bool)
    (localContent : String → String) (st : S3State) (src_file dst_file : String) :
    S3State × List Effect :=
  let p := normalize_pair src_file dst_file
  let src := p.1
  let dst := p.2
  if getFails dst then
    (s3Put st dst (localContent src), [Effect.upload src dst])
  else
    match s3Get st dst with
    | none => (s3Put st dst (localContent src), [Effect.upload src dst])
    | some remote =>
      let dst_md5 := md5 remote
      let src_md5 := md5 (localContent src)
      if src_md5 ≠ dst_md5 then
        (s3Put st dst (localContent src), [Effect.upload src dst])
      else (st, [])

/-- The `for idx, src_file in enumerate(local_list)` loop of `s3_upload`,
over the zipped pairs. -/
def s3_upload_go (md5 : String → String) (getFails : String → Bool)
    (localContent : String → String) :
    S3State → List (String × String) → S3State × List Effect
  | st, [] => (st, [])
  | st, (src_file, dst_file) :: rest =>
    let r := s3_upload_item md5 getFails localContent st src_file dst_file
    let r2 := s3_upload_go md5 getFails localContent r.1 rest
    (r2.1, r.2 ++ r2.2)

/-- `s3_upload(bucket, local_s3_tuple, make_public, encrypt)`: build the
extra transfer arguments (ACL, server-side encryption — they only tag the
transfer, not the engine's decisions), raise `RuntimeError` when the list
lengths differ, then process the pairs. -/
def s3_upload (md5 : String → String) (getFails : String → Bool)
    (localContent : String → String) (st : S3State)
    (local_s3_tuple : List String × List String) (make_public encrypt : Bool) :
    Except UploadError (S3State × List Effect) :=
  let local_list := local_s3_tuple.1
  let s3_list := local_s3_tuple.2
  let num_files := local_list.length
  if num_files ≠ s3_list.length then Except.error UploadError.runtimeError
  else Except.ok (s3_upload_go md5 getFails localContent st (local_list.zip s3_list))

/-- A local filesystem entry: a regular file with its bytes, or a
directory. -/
inductive FSEntry where
  | file (content : String)
  | dir
  deriving DecidableEq, Repr

/-- The local filesystem: an association list from paths to entries.
`os.path.exists` is membership; `os.path.isdir` asks for the `dir` case. -/
abbrev LocalFS := List (String × FSEntry)

/-- Entry at path `p`, first binding wins. -/
def fsGet (fs : LocalFS) (p : String) : Option FSEntry :=
  (fs.find? (fun e => e.1 == p)).map (fun e => e.2)

/-- Writing a regular file at `p`. -/
def fsPutFile (fs : LocalFS) (p content : String) : LocalFS :=
  (p, FSEntry.file content) :: fs.filter (fun e => e.1 != p)

/-- `os.path.dirname` (posixpath): everything up to and including the
last slash, with trailing slashes then stripped unless the head consists
only of slashes.  So `dirname "d/p" = "d"`, `dirname "/p" = "/"`,
`dirname "a//b" = "a"`, and `dirname "p" = ""` for a slash-free path. -/
def dirname (p : String) : String :=
  let head := (p.data.reverse.dropWhile (fun c => c != '/')).reverse
  if head.any (fun c => c != '/') then
    String.mk ((head.reverse.dropWhile (fun c => c == '/')).reverse)
  else String.mk head

/-- `os.path.exists`: the empty path never exists; any other path exists
exactly when the filesystem has an entry for it. -/
def pathExists (fs : LocalFS) (p : String) : Bool :=
  if p = "" then false else (fsGet fs p).isSome

/-- Errors that escape `s3_download` uncaught: a Python `IndexError` from
`local_files[idx]` when the lists have mismatched lengths; the
`FileNotFoundError` that `os.makedirs('')` raises when the destination
path has no directory component (no handler in the loop catches it); and
an exception raised by `bucket.download_file` outside any `try` (the
fresh-download branch, aws_utils.py lines 308-310, has no handler). -/
inductive DownloadError where
  | indexError
  | fileNotFoundError
  | downloadException (key : String)
  deriving DecidableEq, Repr

/-- Lines 286-288 of `s3_download`:
`if not os.path.exists(dirname): os.makedirs(dirname)`.  When the
destination path is slash-free, `dirname` is `''`, which never exists,
and `os.makedirs('')` deterministically raises `FileNotFoundError`;
otherwise a missing parent is created (creation of a nonempty path is
assumed to succeed) and recorded. -/
def ensure_dirs (fs : LocalFS) (local_path : String) :
    Except DownloadError (LocalFS × List Effect) :=
  let d := dirname local_path
  if pathExists fs d then Except.ok (fs, [])
  else if d = "" then Except.error DownloadError.fileNotFoundError
  else Except.ok ((d, FSEntry.dir) :: fs, [Effect.makedirs d])

/-- Loop body of `s3_download` (aws_utils.py lines 267-310) for one
`(bkey, local_path)` pair: skip when the remote object is absent; run the
parent-directory step (which aborts with `FileNotFoundError` for a
slash-free destination); skip silently when the destination is an
existing directory; when it is an existing file, compare MD5s — equal
means skip, different means re-download inside a `try` whose handler logs
the failure (`dlFails` models `bucket.download_file` raising) and
continues; when the destination does not exist, download with no
handler, so a failure escapes as an exception. -/
def s3_download_item (md5 : String → String) (dlFails : String → String → Bool)
    (st : S3State) (fs : LocalFS) (bkey local_path : String) :
    Except DownloadError (LocalFS × List Effect) :=
  match s3Get st bkey with
  | none => Except.ok (fs, [])
  | some content =>
    let s3_md5 := md5 content
    match ensure_dirs fs local_path with
    | Except.error e => Except.error e
    | Except.ok (fs1, acts0) =>
      match (if pathExists fs1 local_path then fsGet fs1 local_path else none) with
      | some FSEntry.dir => Except.ok (fs1, acts0)
      | some (FSEntry.file c) =>
        if md5 c == s3_md5 then Except.ok (fs1, acts0)
        else if dlFails bkey local_path then
          Except.ok (fs1, acts0 ++ [Effect.downloadFailed bkey local_path])
        else Except.ok (fsPutFile fs1 local_path content,
          acts0 ++ [Effect.download bkey local_path])
      | none =>
        if dlFails bkey local_path then
          Except.error (DownloadError.downloadException bkey)
        else Except.ok (fsPutFile fs1 local_path content,
          acts0 ++ [Effect.download bkey local_path])

/-- The `for idx, bkey in enumerate(s3_list)` loop of `s3_download`.
`local_files[idx]` is read only after the remote lookup succeeds, exactly
as in the source, so an out-of-range index surfaces as `IndexError` only
then. -/
def s3_download_go (md5 : String → String) (dlFails : String → String → Bool)
    (st : S3State) (local_files : List String) :
    LocalFS → Nat → List String → Except DownloadError (LocalFS × List Effect)
  | fs, _, [] => Except.ok (fs, [])
  | fs, idx, bkey :: rest =>
    match s3Get st bkey with
    | none => s3_download_go md5 dlFails st local_files fs (idx + 1) rest
    | some _ =>
      match local_files.get? idx with
      | none => Except.error DownloadError.indexError
      | some local_path =>
        match s3_download_item md5 dlFails st fs bkey local_path with
        | Except.error e => Except.error e
        | Except.ok (fs2, acts) =>
          match s3_download_go md5 dlFails st local_files fs2 (idx + 1) rest with
          | Except.error e => Except.error e
          | Except.ok (fs3, acts3) => Except.ok (fs3, acts ++ acts3)

/-- `s3_download(bucket, s3_local_tuple)`: unpack the tuple and run the
loop.  Unlike `s3_rename` and `s3_upload`, the source performs no length
check before iterating. -/
def s3_download (md5 : String → String) (dlFails : String → String → Bool)
    (st : S3State) (fs : LocalFS) (s3_local_tuple : List String × List String) :
    Except DownloadError (LocalFS × List Effect) :=
  s3_download_go md5 dlFails st s3_local_tuple.2 fs 0 s3_local_tuple.1

/-- `ProgressPercentage` (aws_utils.py lines 15-60): `size` is the float
total set by `__init__` from the filename argument's `content_length`,
`size`, or `os.path.getsize`; `seen_so_far` accumulates delivered bytes
under the instance lock.  Rational arithmetic stands in for Python
floats; the quantities involved are exact byte counts. -/
structure ProgressPercentage where
  size : ℚ
  seen_so_far : ℚ
  deriving DecidableEq, Repr

/-- `__init__(filename)` with the resolved total size. -/
def ProgressPercentage.init (size : ℚ) : ProgressPercentage :=
  { size := size, seen_so_far := 0 }

/-- `__call__(bytes_amount)` (aws_utils.py lines 41-60): add the delivered
bytes, then render the percentage — computed as
`seen_so_far / size * 100` only when `size != 0`, and as the constant `0`
otherwise, so no division by zero is ever performed.  Returns the updated
tracker and the reported percentage. -/
def ProgressPercentage.call (p : ProgressPercentage) (bytes_amount : ℚ) :
    ProgressPercentage × ℚ :=
  let seen := p.seen_so_far + bytes_amount
  ({ size := p.size, seen_so_far := seen },
   if p.size ≠ 0 then seen / p.size * 100 else 0)

/-- A sequence of `__call__` invocations on one tracker, collecting the
reported percentages. -/
def ProgressPercentage.callAll : ProgressPercentage → List ℚ → ProgressPercentage × List ℚ
  | p, [] => (p, [])
  | p, b :: bs =>
    let r := ProgressPercentage.call p b
    let rest := ProgressPercentage.callAll r.1 bs
    (rest.1, r.2 :: rest.2)

theorem find?_filter_ne (st : S3State) (k k2 : String) (h : k2 ≠ k) :
    (st.filter (fun p => p.1 != k)).find? (fun p => p.1 == k2)
      = st.find? (fun p => p.1 == k2) := by
  induction st with
  | nil => rfl
  | cons a t ih =>
    by_cases ha : a.1 = k
    · have h1 : (a.1 != k) = false := by simp [ha]
      have h2 : (a.1 == k2) = false := by simp [ha]; exact fun e => h e.symm
      simp [List.filter_cons, h1, List.find?_cons, h2, ih]
    · have h1 : (a.1 != k) = true := by simp [ha]
      by_cases hk2 : a.1 = k2
      · have h2 : (a.1 == k2) = true := by simp [hk2]
        simp [List.filter_cons, h1, List.find?_cons, h2]
      · have h2 : (a.1 == k2) = false := by simp [hk2]
        simp [List.filter_cons, h1, List.find?_cons, h2, ih]

theorem s3Get_s3Put_self (st : S3State) (k v : String) :
    s3Get (s3Put st k v) k = some v := by
  simp [s3Get, s3Put, List.find?_cons]

theorem s3Get_s3Put_ne (st : S3State) (k v k2 : String) (h : k2 ≠ k) :
    s3Get (s3Put st k v) k2 = s3Get st k2 := by
  have h2 : (k == k2) = false := by simp; exact fun e => h e.symm
  simp only [s3Get, s3Put, List.find?_cons, h2]
  rw [find?_filter_ne st k k2 h]

theorem s3Get_s3Del_self (st : S3State) (k : String) :
    s3Get (s3Del st k) k = none := by
  induction st with
  | nil => rfl
  | cons a t ih =>
    by_cases ha : a.1 = k
    · have h1 : (a.1 != k) = false := by simp [ha]
      simp only [s3Del, List.filter_cons, h1] at ih ⊢
      exact ih
    · have h1 : (a.1 != k) = true := by simp [ha]
      have h2 : (a.1 == k) = false := by simp [ha]
      simp only [s3Del, List.filter_cons, h1, if_true, s3Get, List.find?_cons,
        h2] at ih ⊢
      exact ih

theorem s3Get_s3Del_ne (st : S3State) (k k2 : String) (h : k2 ≠ k) :
    s3Get (s3Del st k) k2 = s3Get st k2 := by
  simp only [s3Get, s3Del]
  rw [find?_filter_ne st k k2 h]

theorem s3Get_s3Del_none (st : S3State) (k k2 : String)
    (h : s3Get st k2 = none) : s3Get (s3Del st k) k2 = none := by
  by_cases hk : k2 = k
  · subst hk; exact s3Get_s3Del_self st k2
  · rw [s3Get_s3Del_ne st k k2 hk]; exact h

theorem s3_delete_preserves_none (delFails : String → Bool) (keys : List String)
    (st : S3State) (k : String) (h : s3Get st k = none) :
    s3Get (s3_delete st delFails keys).1 k = none := by
  induction keys generalizing st with
  | nil => exact h
  | cons k2 rest ih =>
    by_cases hf : delFails k2
    · simp only [s3_delete, hf, if_true]; exact ih st h
    · simp only [s3_delete, hf, Bool.false_eq_true, if_false]
      exact ih (s3Del st k2) (s3Get_s3Del_none st k2 k h)

theorem rename_item_skip_of_dst (st : S3State) (keep_old : Bool)
    (src_f dst_key : String) (h : (s3Get st dst_key).isSome) :
    s3_rename_item st keep_old src_f dst_key = (st, []) := by
  obtain ⟨v, hv⟩ := Option.isSome_iff_exists.mp h
  cases hsrc : s3Get st src_f <;> simp [s3_rename_item, hsrc, hv]

theorem rename_item_rerun_noop (st0 : S3State) (k1 k2 : Bool)
    (src_f dst_key : String) :
    s3_rename_item (s3_rename_item st0 k1 src_f dst_key).1 k2 src_f dst_key
      = ((s3_rename_item st0 k1 src_f dst_key).1, []) := by
  cases hsrc : s3Get st0 src_f with
  | none => simp [s3_rename_item, hsrc]
  | some c =>
    cases hdst : s3Get st0 dst_key with
    | some v =>
      have he : s3_rename_item st0 k1 src_f dst_key = (st0, []) :=
        rename_item_skip_of_dst st0 k1 src_f dst_key (by simp [hdst])
      rw [he]
      exact rename_item_skip_of_dst st0 k2 src_f dst_key (by simp [hdst])
    | none =>
      have hne : dst_key ≠ src_f := by
        intro e; rw [e] at hdst; rw [hdst] at hsrc; cases hsrc
      cases k1 with
      | true =>
        have he : s3_rename_item st0 true src_f dst_key
            = (s3Put st0 dst_key c, [Effect.copy src_f dst_key]) := by
          simp [s3_rename_item, hsrc, hdst]
        rw [he]
        exact rename_item_skip_of_dst _ k2 src_f dst_key
          (by rw [s3Get_s3Put_self]; rfl)
      | false =>
        have he : s3_rename_item st0 false src_f dst_key
            = (s3Del (s3Put st0 dst_key c) src_f,
               [Effect.copy src_f dst_key, Effect.delete src_f]) := by
          simp [s3_rename_item, hsrc, hdst]
        rw [he]
        refine rename_item_skip_of_dst _ k2 src_f dst_key ?_
        rw [s3Get_s3Del_ne _ _ _ hne, s3Get_s3Put_self]
        rfl

/-- C3: for a rename pair whose destination key already exists, the copy
and the delete never execute and both keys are left unchanged; moreover
re-running the pair on the state left by any previous run of that pair
(successful, skipped, or with `keep_old` set — which also covers the
interrupted-after-copy state, where the destination exists) is a no-op. -/
theorem s3_rename_never_overwrites (st : S3State) (keep_old : Bool)
    (src_f dst_key : String) (h : (s3Get st dst_key).isSome) :
    s3_rename_item st keep_old src_f dst_key = (st, []) ∧
    ∀ (st0 : S3State) (k1 k2 : Bool),
      s3_rename_item (s3_rename_item st0 k1 src_f dst_key).1 k2 src_f dst_key
        = ((s3_rename_item st0 k1 src_f dst_key).1, []) :=
  ⟨rename_item_skip_of_dst st keep_old src_f dst_key h,
   fun st0 k1 k2 => rename_item_rerun_noop st0 k1 k2 src_f dst_key⟩

/-- C3 witness: a store where the destination `new/a` already exists; the
pair is skipped with no state change and no effects. -/
theorem s3_rename_never_overwrites_witness :
    s3_rename_item [("old/a", "c1"), ("new/a", "c2")] false "old/a" "new/a"
      = ([("old/a", "c1"), ("new/a", "c2")], []) :=
  (s3_rename_never_overwrites [("old/a", "c1"), ("new/a", "c2")] false
    "old/a" "new/a" (by decide)).1

/-- C5: for a rename pair whose source exists (content `content`) and
whose destination does not: with `keep_old = false` the copy and the
delete both run, after which the source key no longer exists and the
destination holds the source's content; with `keep_old = true` only the
copy runs and both keys exist with that content. -/
theorem s3_rename_copy_then_delete (st : S3State) (src_f dst_key content : String)
    (h1 : s3Get st src_f = some content) (h2 : s3Get st dst_key = none) :
    (s3_rename_item st false src_f dst_key
        = (s3Del (s3Put st dst_key content) src_f,
           [Effect.copy src_f dst_key, Effect.delete src_f]) ∧
      s3Get (s3_rename_item st false src_f dst_key).1 src_f = none ∧
      s3Get (s3_rename_item st false src_f dst_key).1 dst_key = some content) ∧
    (s3_rename_item st true src_f dst_key
        = (s3Put st dst_key content, [Effect.copy src_f dst_key]) ∧
      s3Get (s3_rename_item st true src_f dst_key).1 src_f = some content ∧
      s3Get (s3_rename_item st true src_f dst_key).1 dst_key = some content) := by
  have hne : dst_key ≠ src_f := by
    intro e; rw [e] at h2; rw [h2] at h1; cases h1
  have hef : s3_rename_item st false src_f dst_key
      = (s3Del (s3Put st dst_key content) src_f,
         [Effect.copy src_f dst_key, Effect.delete src_f]) := by
    simp [s3_rename_item, h1, h2]
  have het : s3_rename_item st true src_f dst_key
      = (s3Put st dst_key content, [Effect.copy src_f dst_key]) := by
    simp [s3_rename_item, h1, h2]
  refine ⟨⟨hef, ?_, ?_⟩, ⟨het, ?_, ?_⟩⟩
  · rw [hef]; exact s3Get_s3Del_self _ _
  · rw [hef]
    show s3Get (s3Del (s3Put st dst_key content) src_f) dst_key = some content
    rw [s3Get_s3Del_ne _ _ _ hne, s3Get_s3Put_self]
  · rw [het]
    show s3Get (s3Put st dst_key content) src_f = some content
    rw [s3Get_s3Put_ne _ _ _ _ (fun e => hne e.symm)]
    exact h1
  · rw [het]
    exact s3Get_s3Put_self _ _ _

/-- C5 witness: renaming `old/a` to the absent `new/a` with
`keep_old = false` leaves only `new/a`, holding the old content. -/
theorem s3_rename_copy_then_delete_witness :
    s3Get (s3_rename_item [("old/a", "c1")] false "old/a" "new/a").1 "old/a"
        = none ∧
    s3Get (s3_rename_item [("old/a", "c1")] false "old/a" "new/a").1 "new/a"
        = some "c1" :=
  ⟨(s3_rename_copy_then_delete [("old/a", "c1")] "old/a" "new/a" "c1"
      rfl rfl).1.2.1,
   (s3_rename_copy_then_delete [("old/a", "c1")] "old/a" "new/a" "c1"
      rfl rfl).1.2.2⟩

/-- C10: `s3_rename` never raises its `RuntimeError`: every call either
raises the `ValueError` of the first length check or returns normally,
because the second length check repeats the first check's condition. -/
theorem s3_rename_runtime_error_unreachable (st : S3State)
    (src_dst_tuple : List String × List String) (keep_old make_public : Bool) :
    s3_rename st src_dst_tuple keep_old make_public
        = Except.error RenameError.valueError ∨
    ∃ r, s3_rename st src_dst_tuple keep_old make_public = Except.ok r := by
  by_cases h : src_dst_tuple.1.length = src_dst_tuple.2.length
  · right
    refine ⟨s3_rename_go keep_old st (src_dst_tuple.1.zip src_dst_tuple.2), ?_⟩
    simp [s3_rename, h]
  · left; simp [s3_rename, h]

/-- C7: `s3_delete` attempts every key independently: the recorded
outcomes cover exactly the input keys in order; every key whose delete
does not fail is gone from the final store; and each recorded outcome is
success precisely when the oracle did not fail that key — so one failing
key never prevents the remaining keys from being attempted and deleted. -/
theorem s3_delete_attempts_every_key (st : S3State) (delFails : String → Bool)
    (keys : List String) :
    ((s3_delete st delFails keys).2.map Prod.fst = keys) ∧
    (∀ k, k ∈ keys → delFails k = false →
      s3Get (s3_delete st delFails keys).1 k = none) ∧
    (∀ k b, (k, b) ∈ (s3_delete st delFails keys).2 → b = !delFails k) := by
  induction keys generalizing st with
  | nil => exact ⟨rfl, fun k hk => absurd hk (List.not_mem_nil k), fun k b hk =>
      absurd hk (List.not_mem_nil (k, b))⟩
  | cons k2 rest ih =>
    by_cases hf : delFails k2
    · refine ⟨?_, ?_, ?_⟩
      · simp [s3_delete, hf, (ih st).1]
      · intro k hk hdf
        rcases List.mem_cons.mp hk with he | hm
        · subst he; rw [hdf] at hf; cases hf
        · have := (ih st).2.1 k hm hdf
          simpa [s3_delete, hf] using this
      · intro k b hk
        simp only [s3_delete, hf, if_true, List.mem_cons] at hk
        rcases hk with he | hm
        · cases he; simp [hf]
        · exact (ih st).2.2 k b hm
    · refine ⟨?_, ?_, ?_⟩
      · simp [s3_delete, hf, (ih (s3Del st k2)).1]
      · intro k hk hdf
        rcases List.mem_cons.mp hk with he | hm
        · subst he
          have h0 : s3Get (s3Del st k) k = none := s3Get_s3Del_self st k
          have := s3_delete_preserves_none delFails rest (s3Del st k) k h0
          simpa [s3_delete, hf] using this
        · have := (ih (s3Del st k2)).2.1 k hm hdf
          simpa [s3_delete, hf] using this
      · intro k b hk
        simp only [s3_delete, hf, if_false, Bool.false_eq_true, List.mem_cons] at hk
        rcases hk with he | hm
        · cases he; simp [hf]
        · exact (ih (s3Del st k2)).2.2 k b hm

/-- C7 witness: with key `b` of `[a, b, c]` failing, keys `a` and `c` are
still deleted from the store. -/
theorem s3_delete_attempts_every_key_witness :
    s3Get (s3_delete [("a", "1"), ("b", "2"), ("c", "3")]
        (fun k => k == "b") ["a", "b", "c"]).1 "c" = none :=
  (s3_delete_attempts_every_key [("a", "1"), ("b", "2"), ("c", "3")]
    (fun k => k == "b") ["a", "b", "c"]).2.1 "c" (by decide) (by decide)

/-- C8: a Progress Tracker constructed with total size 0 reports the
percentage as exactly 0 on every `__call__`, whatever bytes are
delivered; the `size != 0` guard means the zero total is never used as a
divisor. -/
theorem progress_percentage_zero_total (p : ProgressPercentage) (h : p.size = 0)
    (amounts : List ℚ) :
    ((ProgressPercentage.callAll p amounts).2.all (fun q => decide (q = 0)))
      = true := by
  induction amounts generalizing p with
  | nil => rfl
  | cons b bs ih =>
    have hs : ((ProgressPercentage.call p b).1).size = 0 := h
    have hz : (ProgressPercentage.call p b).2 = 0 := by
      simp [ProgressPercentage.call, h]
    simp only [ProgressPercentage.callAll, List.all_cons, hz,
      Bool.and_eq_true, decide_eq_true_eq]
    exact ⟨trivial, ih _ hs⟩

/-- C8 witness: a zero-total tracker reports 0 for the deliveries 5 and 7. -/
theorem progress_percentage_zero_total_witness :
    ((ProgressPercentage.callAll (ProgressPercentage.init 0) [5, 7]).2.all
      (fun q => decide (q = 0))) = true :=
  progress_percentage_zero_total (ProgressPercentage.init 0) rfl [5, 7]

theorem upload_item_of_lookup_failure (md5 : String → String)
    (getFails : String → Bool) (localContent : String → String) (st : S3State)
    (src_file dst_file : String)
    (h : getFails (normalize_pair src_file dst_file).2 = true) :
    s3_upload_item md5 getFails localContent st src_file dst_file
      = (s3Put st (normalize_pair src_file dst_file).2
           (localContent (normalize_pair src_file dst_file).1),
         [Effect.upload (normalize_pair src_file dst_file).1
           (normalize_pair src_file dst_file).2]) := by
  simp [s3_upload_item, h]

theorem upload_item_of_absent (md5 : String → String) (getFails : String → Bool)
    (localContent : String → String) (st : S3State) (src_file dst_file : String)
    (hgf : getFails (normalize_pair src_file dst_file).2 = false)
    (hr : s3Get st (normalize_pair src_file dst_file).2 = none) :
    s3_upload_item md5 getFails localContent st src_file dst_file
      = (s3Put st (normalize_pair src_file dst_file).2
           (localContent (normalize_pair src_file dst_file).1),
         [Effect.upload (normalize_pair src_file dst_file).1
           (normalize_pair src_file dst_file).2]) := by
  simp [s3_upload_item, hgf, hr]

theorem upload_item_of_present (md5 : String → String) (getFails : String → Bool)
    (localContent : String → String) (st : S3State)
    (src_file dst_file remote : String)
    (hgf : getFails (normalize_pair src_file dst_file).2 = false)
    (hr : s3Get st (normalize_pair src_file dst_file).2 = some remote) :
    s3_upload_item md5 getFails localContent st src_file dst_file
      = if md5 (localContent (normalize_pair src_file dst_file).1) ≠ md5 remote
        then (s3Put st (normalize_pair src_file dst_file).2
                (localContent (normalize_pair src_file dst_file).1),
              [Effect.upload (normalize_pair src_file dst_file).1
                (normalize_pair src_file dst_file).2])
        else (st, []) := by
  simp [s3_upload_item, hgf, hr]

theorem upload_item_rerun_skip (md5 : String → String)
    (getFails getFails2 : String → Bool) (localContent : String → String)
    (st : S3State) (src_file dst_file : String)
    (h2 : getFails2 (normalize_pair src_file dst_file).2 = false) :
    s3_upload_item md5 getFails2 localContent
        (s3_upload_item md5 getFails localContent st src_file dst_file).1
        src_file dst_file
      = ((s3_upload_item md5 getFails localContent st src_file dst_file).1, []) := by
  cases hgf : getFails (normalize_pair src_file dst_file).2 with
  | true =>
    rw [upload_item_of_lookup_failure md5 getFails localContent st _ _ hgf]
    rw [upload_item_of_present md5 getFails2 localContent _ _ _
      (localContent (normalize_pair src_file dst_file).1) h2
      (s3Get_s3Put_self _ _ _)]
    simp
  | false =>
    cases hr : s3Get st (normalize_pair src_file dst_file).2 with
    | none =>
      rw [upload_item_of_absent md5 getFails localContent st _ _ hgf hr]
      rw [upload_item_of_present md5 getFails2 localContent _ _ _
        (localContent (normalize_pair src_file dst_file).1) h2
        (s3Get_s3Put_self _ _ _)]
      simp
    | some remote =>
      by_cases hmd : md5 (localContent (normalize_pair src_file dst_file).1)
          = md5 remote
      · have he : s3_upload_item md5 getFails localContent st src_file dst_file
            = (st, []) := by
          rw [upload_item_of_present md5 getFails localContent st _ _ remote hgf hr]
          simp [hmd]
        rw [he]
        rw [upload_item_of_present md5 getFails2 localContent st _ _ remote h2 hr]
        simp [hmd]
      · have he : s3_upload_item md5 getFails localContent st src_file dst_file
            = (s3Put st (normalize_pair src_file dst_file).2
                 (localContent (normalize_pair src_file dst_file).1),
               [Effect.upload (normalize_pair src_file dst_file).1
                 (normalize_pair src_file dst_file).2]) := by
          rw [upload_item_of_present md5 getFails localContent st _ _ remote hgf hr]
          simp [hmd]
        rw [he]
        rw [upload_item_of_present md5 getFails2 localContent _ _ _
          (localContent (normalize_pair src_file dst_file).1) h2
          (s3Get_s3Put_self _ _ _)]
        simp

/-- C2: for an upload pair, a destination metadata lookup that raises
`ClientError` — whether the key is absent or the lookup failed for
another reason — leads to an unconditional upload; when the lookup
succeeds, the file is uploaded exactly when the local MD5 differs from
the remote checksum, and the pair is skipped with no effect otherwise.
Consequently a second upload of the same unchanged local file (with a
succeeding lookup) is a skip. -/
theorem s3_upload_checksum_skip_logic (md5 : String → String)
    (getFails : String → Bool) (localContent : String → String) (st : S3State)
    (src_file dst_file : String) :
    (getFails (normalize_pair src_file dst_file).2 = true →
      s3_upload_item md5 getFails localContent st src_file dst_file
        = (s3Put st (normalize_pair src_file dst_file).2
             (localContent (normalize_pair src_file dst_file).1),
           [Effect.upload (normalize_pair src_file dst_file).1
             (normalize_pair src_file dst_file).2])) ∧
    (getFails (normalize_pair src_file dst_file).2 = false →
      s3Get st (normalize_pair src_file dst_file).2 = none →
      s3_upload_item md5 getFails localContent st src_file dst_file
        = (s3Put st (normalize_pair src_file dst_file).2
             (localContent (normalize_pair src_file dst_file).1),
           [Effect.upload (normalize_pair src_file dst_file).1
             (normalize_pair src_file dst_file).2])) ∧
    (getFails (normalize_pair src_file dst_file).2 = false →
      ∀ remote, s3Get st (normalize_pair src_file dst_file).2 = some remote →
        (md5 (localContent (normalize_pair src_file dst_file).1) ≠ md5 remote →
          s3_upload_item md5 getFails localContent st src_file dst_file
            = (s3Put st (normalize_pair src_file dst_file).2
                 (localContent (normalize_pair src_file dst_file).1),
               [Effect.upload (normalize_pair src_file dst_file).1
                 (normalize_pair src_file dst_file).2])) ∧
        (md5 (localContent (normalize_pair src_file dst_file).1) = md5 remote →
          s3_upload_item md5 getFails localContent st src_file dst_file
            = (st, []))) ∧
    (∀ getFails2 : String → Bool,
      getFails2 (normalize_pair src_file dst_file).2 = false →
      s3_upload_item md5 getFails2 localContent
          (s3_upload_item md5 getFails localContent st src_file dst_file).1
          src_file dst_file
        = ((s3_upload_item md5 getFails localContent st src_file dst_file).1, [])) := by
  refine ⟨fun h => upload_item_of_lookup_failure md5 getFails localContent st
      src_file dst_file h,
    fun hgf hr => upload_item_of_absent md5 getFails localContent st
      src_file dst_file hgf hr,
    fun hgf remote hr => ⟨fun hmd => ?_, fun hmd => ?_⟩,
    fun getFails2 h2 => upload_item_rerun_skip md5 getFails getFails2
      localContent st src_file dst_file h2⟩
  · rw [upload_item_of_present md5 getFails localContent st _ _ remote hgf hr]
    simp [hmd]
  · rw [upload_item_of_present md5 getFails localContent st _ _ remote hgf hr]
    simp [hmd]

/-- C2 witness: uploading `a.txt` (content `data`) to the absent key `k1`
uploads, and uploading it again is a skip. -/
theorem s3_upload_checksum_skip_logic_witness :
    s3_upload_item (fun s => s) (fun _ => false) (fun _ => "data") [] "a.txt" "k1"
      = ([("k1", "data")], [Effect.upload "a.txt" "k1"]) ∧
    s3_upload_item (fun s => s) (fun _ => false) (fun _ => "data")
        (s3_upload_item (fun s => s) (fun _ => false) (fun _ => "data") []
          "a.txt" "k1").1 "a.txt" "k1"
      = ((s3_upload_item (fun s => s) (fun _ => false) (fun _ => "data") []
          "a.txt" "k1").1, []) :=
  ⟨(s3_upload_checksum_skip_logic (fun s => s) (fun _ => false) (fun _ => "data")
      [] "a.txt" "k1").2.1 rfl rfl,
   (s3_upload_checksum_skip_logic (fun s => s) (fun _ => false) (fun _ => "data")
      [] "a.txt" "k1").2.2.2 (fun _ => false) rfl⟩

/-- C6 counterexample: with both sides fully qualified, the `elif` leaves
the destination unnormalized, so the key used against the store still
carries the scheme and bucket: the claim that every fully-qualified
source or destination is stripped fails at this input. -/
theorem s3_upload_normalization_counterexample :
    startsWithS3 "s3://b/x" = true ∧ startsWithS3 "s3://b/y" = true ∧
    normalize_pair "s3://b/x" "s3://b/y" = ("x", "s3://b/y") ∧
    s3_upload_item (fun s => s) (fun _ => false) (fun _ => "data") []
        "s3://b/x" "s3://b/y"
      = ([("s3://b/y", "data")], [Effect.upload "x" "s3://b/y"]) :=
  ⟨rfl, rfl, rfl, rfl⟩

/-- C6 amended: in `s3_upload`, a fully-qualified source path is
normalized by stripping the scheme and bucket-name component; a
fully-qualified destination is normalized only when the source is not
fully qualified (the `elif`), and otherwise keeps its scheme prefix; the
keys used against the store are exactly the normalized pair. -/
theorem s3_upload_normalization_amended (src_file dst_file : String)
    (h : startsWithS3 dst_file = true) :
    (startsWithS3 src_file = true →
      normalize_pair src_file dst_file = (stripS3 src_file, dst_file)) ∧
    (startsWithS3 src_file = false →
      normalize_pair src_file dst_file = (src_file, stripS3 dst_file)) ∧
    (∀ (md5 localContent : String → String) (st : S3State),
      s3_upload_item md5 (fun _ => true) localContent st src_file dst_file
        = (s3Put st (normalize_pair src_file dst_file).2
             (localContent (normalize_pair src_file dst_file).1),
           [Effect.upload (normalize_pair src_file dst_file).1
             (normalize_pair src_file dst_file).2])) := by
  refine ⟨fun hs => by simp [normalize_pair, hs],
    fun hs => by simp [normalize_pair, hs, h], ?_⟩
  intro md5 localContent st
  exact upload_item_of_lookup_failure md5 (fun _ => true) localContent st
    src_file dst_file rfl

/-- C6 witness: a local source and a fully-qualified destination: only
the destination is stripped. -/
theorem s3_upload_normalization_amended_witness :
    normalize_pair "/tmp/a" "s3://b/y/z" = ("/tmp/a", "y/z") :=
  (s3_upload_normalization_amended "/tmp/a" "s3://b/y/z" rfl).2.1 rfl

/-- C1 amended: `s3_rename` and `s3_upload` report mismatched list
lengths immediately (`ValueError`, `RuntimeError`) and process no pairs;
`s3_download` has no such check (see the counterexample). -/
theorem bulk_length_contract (st : S3State) (srcs dsts : List String)
    (keep_old make_public encrypt : Bool) (md5 : String → String)
    (getFails : String → Bool) (localContent : String → String)
    (h : srcs.length ≠ dsts.length) :
    s3_rename st (srcs, dsts) keep_old make_public
        = Except.error RenameError.valueError ∧
    s3_upload md5 getFails localContent st (srcs, dsts) make_public encrypt
        = Except.error UploadError.runtimeError := by
  constructor
  · simp [s3_rename, h]
  · simp [s3_upload, h]

/-- C1 witness: one source and two destinations. -/
theorem bulk_length_contract_witness :
    s3_rename [] (["a"], ["b", "c"]) false false
        = Except.error RenameError.valueError ∧
    s3_upload (fun s => s) (fun _ => false) (fun _ => "d") []
        (["a"], ["b", "c"]) false false
        = Except.error UploadError.runtimeError :=
  bulk_length_contract [] ["a"] ["b", "c"] false false false (fun s => s)
    (fun _ => false) (fun _ => "d") (by decide)

theorem fsGet_cons_ne (fs : LocalFS) (d : String) (e : FSEntry) (p : String)
    (h : p ≠ d) : fsGet ((d, e) :: fs) p = fsGet fs p := by
  have h2 : (d == p) = false := by simp; exact fun x => h x.symm
  simp [fsGet, List.find?_cons, h2]

theorem ensure_dirs_cases (fs : LocalFS) (lp : String) (fs1 : LocalFS)
    (acts0 : List Effect)
    (he : ensure_dirs fs lp = Except.ok (fs1, acts0)) :
    (pathExists fs (dirname lp) = true ∧ fs1 = fs ∧ acts0 = []) ∨
    (pathExists fs (dirname lp) = false ∧ dirname lp ≠ "" ∧
      fs1 = (dirname lp, FSEntry.dir) :: fs ∧
      acts0 = [Effect.makedirs (dirname lp)]) := by
  by_cases hex : pathExists fs (dirname lp) = true
  · left
    simp only [ensure_dirs, hex, if_true, Except.ok.injEq, Prod.mk.injEq] at he
    exact ⟨hex, he.1.symm, he.2.symm⟩
  · right
    by_cases hdz : dirname lp = ""
    · simp [ensure_dirs, hdz, pathExists] at he
    · simp only [ensure_dirs, Bool.not_eq_true _ ▸ hex, Bool.false_eq_true,
        if_false, hdz, Except.ok.injEq, Prod.mk.injEq] at he
      exact ⟨Bool.not_eq_true _ ▸ hex, hdz, he.1.symm, he.2.symm⟩

theorem download_item_dir_skip (md5 : String → String)
    (dlFails : String → String → Bool) (st : S3State) (fs : LocalFS)
    (bkey local_path content : String) (fs1 : LocalFS) (acts0 : List Effect)
    (hr : s3Get st bkey = some content)
    (he : ensure_dirs fs local_path = Except.ok (fs1, acts0))
    (hne : local_path ≠ "")
    (hd1 : fsGet fs1 local_path = some FSEntry.dir) :
    s3_download_item md5 dlFails st fs bkey local_path
      = Except.ok (fs1, acts0) := by
  have hex : pathExists fs1 local_path = true := by
    simp [pathExists, hne, hd1]
  simp [s3_download_item, hr, he, hex, hd1]

/-- C1 counterexample: `s3_download`, given 1 source and 2 destinations,
raises nothing and still performs a transfer (parent directory `d`
created, then the object downloaded to `d/p`) — the claim that every
bulk operation rejects mismatched lengths with no side effects fails for
`downloadFiles`. -/
theorem download_length_contract_counterexample :
    (List.length ["k"] ≠ List.length ["d/p", "d/q"]) ∧
    s3_download (fun s => s) (fun _ _ => false) [("k", "c")] []
        (["k"], ["d/p", "d/q"])
      = Except.ok ([("d/p", FSEntry.file "c"), ("d", FSEntry.dir)],
          [Effect.makedirs "d", Effect.download "k" "d/p"]) :=
  ⟨by decide, rfl⟩

/-- C4 counterexample: a transfer failure on the first pair, whose
destination `d/p1` does not yet exist locally (its parent `d` is created
normally), escapes the loop and aborts the whole batch — the second pair
is never processed — refuting the claim that per-item download failures
never abort the batch. -/
theorem download_batch_abort_counterexample :
    s3_download (fun s => s) (fun k _ => k == "k1")
        [("k1", "c1"), ("k2", "c2")] [] (["k1", "k2"], ["d/p1", "d/p2"])
      = Except.error (DownloadError.downloadException "k1") := rfl

/-- C4 amended: a download failure is caught at per-item scope, logged,
and the batch continues — but only in the overwrite branch, where the
destination already exists as a file with a differing checksum; in the
fresh-download branch (destination absent) the failure propagates as an
exception, and at batch level a caught failure lets the loop continue
while an uncaught one aborts it. -/
theorem download_failure_scope (md5 : String → String)
    (dlFails : String → String → Bool) (st : S3State) (fs : LocalFS)
    (bkey local_path content : String)
    (hr : s3Get st bkey = some content)
    (hne : local_path ≠ "")
    (hfail : dlFails bkey local_path = true) :
    (∀ (fs1 : LocalFS) (acts0 : List Effect) (c : String),
      ensure_dirs fs local_path = Except.ok (fs1, acts0) →
      fsGet fs1 local_path = some (FSEntry.file c) →
      md5 c ≠ md5 content →
      s3_download_item md5 dlFails st fs bkey local_path
        = Except.ok (fs1, acts0 ++ [Effect.downloadFailed bkey local_path])) ∧
    (∀ (fs1 : LocalFS) (acts0 : List Effect),
      ensure_dirs fs local_path = Except.ok (fs1, acts0) →
      fsGet fs1 local_path = none →
      s3_download_item md5 dlFails st fs bkey local_path
        = Except.error (DownloadError.downloadException bkey)) ∧
    (∀ (local_files : List String) (idx : Nat) (rest : List String)
        (fs2 : LocalFS) (acts : List Effect),
      local_files.get? idx = some local_path →
      s3_download_item md5 dlFails st fs bkey local_path
          = Except.ok (fs2, acts) →
      s3_download_go md5 dlFails st local_files fs idx (bkey :: rest)
        = (s3_download_go md5 dlFails st local_files fs2 (idx + 1) rest).map
            (fun r => (r.1, acts ++ r.2))) ∧
    (∀ (local_files : List String) (idx : Nat) (rest : List String)
        (e : DownloadError),
      local_files.get? idx = some local_path →
      s3_download_item md5 dlFails st fs bkey local_path = Except.error e →
      s3_download_go md5 dlFails st local_files fs idx (bkey :: rest)
        = Except.error e) := by
  refine ⟨?_, ?_, ?_, ?_⟩
  · intro fs1 acts0 c he hc hmd
    have hex : pathExists fs1 local_path = true := by
      simp [pathExists, hne, hc]
    have hb : (md5 c == md5 content) = false := by
      simp only [beq_eq_false_iff_ne, ne_eq]; exact hmd
    simp [s3_download_item, hr, he, hex, hc, hb, hfail]
  · intro fs1 acts0 he hc
    have hex : pathExists fs1 local_path = false := by
      simp [pathExists, hc]
    simp [s3_download_item, hr, he, hex, hfail]
  · intro local_files idx rest fs2 acts hl hitem
    simp only [s3_download_go, hr, hl, hitem]
    cases hgo : s3_download_go md5 dlFails st local_files fs2 (idx + 1) rest with
    | error e => simp [Except.map]
    | ok r => cases r; simp [Except.map]
  · intro local_files idx rest e hl hitem
    simp only [s3_download_go, hr, hl, hitem]

/-- C4 witness: the destination `d/p` exists locally with different
content (its parent `d` exists, so the directory step does nothing), the
transfer fails, the failure is caught and recorded, and the item still
returns normally. -/
theorem download_failure_scope_witness :
    s3_download_item (fun s => s) (fun _ _ => true) [("k", "c")]
        [("d/p", FSEntry.file "x"), ("d", FSEntry.dir)] "k" "d/p"
      = Except.ok ([("d/p", FSEntry.file "x"), ("d", FSEntry.dir)],
          [Effect.downloadFailed "k" "d/p"]) :=
  (download_failure_scope (fun s => s) (fun _ _ => true) [("k", "c")]
      [("d/p", FSEntry.file "x"), ("d", FSEntry.dir)] "k" "d/p" "c" rfl
      (by decide) rfl).1
    [("d/p", FSEntry.file "x"), ("d", FSEntry.dir)] [] "x" rfl rfl (by decide)

/-- C9 counterexample: the remote object `k` exists and the local
destination `out` is an existing directory, yet the pair is not skipped:
`os.path.dirname("out")` is the empty string, which never exists, so the
loop calls `os.makedirs('')`, which raises `FileNotFoundError` before the
directory check is ever reached, aborting the batch. -/
theorem download_directory_abort_counterexample :
    s3Get [("k", "c")] "k" = some "c" ∧
    fsGet [("out", FSEntry.dir)] "out" = some FSEntry.dir ∧
    s3_download_item (fun s => s) (fun _ _ => false) [("k", "c")]
        [("out", FSEntry.dir)] "k" "out"
      = Except.error DownloadError.fileNotFoundError ∧
    s3_download (fun s => s) (fun _ _ => false) [("k", "c")]
        [("out", FSEntry.dir)] (["k"], ["out"])
      = Except.error DownloadError.fileNotFoundError :=
  ⟨rfl, rfl, rfl, rfl⟩

/-- C9 amended: for a download pair whose remote object exists and whose
local destination is an existing directory with a nonempty parent
component (or an already-existing parent), the parent-directory step
succeeds and the item writes nothing to the destination — the only
possible effect is creating the missing parent, never a download — the
pair ends as a skip, and the destination is still the same directory
afterwards; for a slash-free destination the loop instead dies in
`os.makedirs('')` (see the counterexample). -/
theorem download_skips_directory (md5 : String → String)
    (dlFails : String → String → Bool) (st : S3State) (fs : LocalFS)
    (bkey local_path content : String)
    (hr : s3Get st bkey = some content)
    (hne : local_path ≠ "")
    (hd : fsGet fs local_path = some FSEntry.dir)
    (hpar : dirname local_path ≠ "" ∨ pathExists fs (dirname local_path) = true) :
    (∃ r, ensure_dirs fs local_path = Except.ok r) ∧
    (∀ (fs1 : LocalFS) (acts0 : List Effect),
      ensure_dirs fs local_path = Except.ok (fs1, acts0) →
      s3_download_item md5 dlFails st fs bkey local_path
          = Except.ok (fs1, acts0) ∧
      (∀ k p, Effect.download k p ∉ acts0) ∧
      fsGet fs1 local_path = some FSEntry.dir) := by
  constructor
  · by_cases hex : pathExists fs (dirname local_path) = true
    · exact ⟨(fs, []), by simp [ensure_dirs, hex]⟩
    · have hdne : dirname local_path ≠ "" := by
        rcases hpar with h | h
        · exact h
        · exact absurd h hex
      refine ⟨((dirname local_path, FSEntry.dir) :: fs,
        [Effect.makedirs (dirname local_path)]), ?_⟩
      simp [ensure_dirs, Bool.not_eq_true _ ▸ hex, hdne]
  · intro fs1 acts0 he
    have hd1 : fsGet fs1 local_path = some FSEntry.dir := by
      rcases ensure_dirs_cases fs local_path fs1 acts0 he with
        ⟨_, hfs, _⟩ | ⟨hex, _, hfs, _⟩
      · rw [hfs]; exact hd
      · rw [hfs]
        have hnd : local_path ≠ dirname local_path := by
          intro e
          rw [← e] at hex
          rw [pathExists, if_neg hne, hd] at hex
          cases hex
        rw [fsGet_cons_ne fs (dirname local_path) FSEntry.dir local_path hnd]
        exact hd
    refine ⟨download_item_dir_skip md5 dlFails st fs bkey local_path content
      fs1 acts0 hr he hne hd1, ?_, hd1⟩
    intro k p
    rcases ensure_dirs_cases fs local_path fs1 acts0 he with
      ⟨_, _, hacts⟩ | ⟨_, _, _, hacts⟩ <;> simp [hacts]

/-- C9 witness: the destination `d/p` is an existing directory whose
parent `d` exists; the item is a skip with no effects. -/
theorem download_skips_directory_witness :
    s3_download_item (fun s => s) (fun _ _ => false) [("k", "c")]
        [("d/p", FSEntry.dir), ("d", FSEntry.dir)] "k" "d/p"
      = Except.ok ([("d/p", FSEntry.dir), ("d", FSEntry.dir)], []) :=
  ((download_skips_directory (fun s => s) (fun _ _ => false) [("k", "c")]
      [("d/p", FSEntry.dir), ("d", FSEntry.dir)] "k" "d/p" "c" rfl (by decide)
      rfl (Or.inl (by decide))).2
    [("d/p", FSEntry.dir), ("d", FSEntry.dir)] [] rfl).1
